import Mathlib

/-!
Shallow embedding of the clarity-js core pieces that the claims concern:

* the background compression worker ("Batcher") of `src/converters/toarray`-style
  worker context found in the repository's compression-worker source
  (`workerContext`: `addEvent`, `postNextBatchToCore`, message loop), and
* the `Layout` plugin (`checkConsistency`, `allowMutation`, `mutation`,
  `processMutations`, `layoutHandler`, `checkDistance`, `backfillLayoutsAsync`).

JavaScript strings are modelled as lists of Unicode scalar values
(`List Nat`); the JavaScript `String.prototype.length` (UTF-16 code-unit
count) is `utf16Length`, and the UTF-8 encoded size is `utf8ByteLength`.
`JSON.stringify` is modelled by `jsonStringify`, following the ECMA-262
algorithm (escape `"`, `\` and control characters; every other character is
copied verbatim, in particular non-ASCII characters are NOT escaped).
-/

namespace Clarity

/-! Definitions for the compression-worker Batcher. -/

/-- UTF-16 code-unit count of a sequence of Unicode scalar values; this is
what the JavaScript `String.prototype.length` returns. -/
def utf16Length (s : List Nat) : Nat :=
  (s.map fun c => if c < 0x10000 then 1 else 2).sum

/-- Number of bytes in the UTF-8 encoding of a sequence of Unicode scalar
values. -/
def utf8ByteLength (s : List Nat) : Nat :=
  (s.map fun c =>
    if c < 0x80 then 1 else if c < 0x800 then 2 else if c < 0x10000 then 3 else 4).sum

/-- JSON value, as handed to `JSON.stringify`. -/
inductive Json where
  | jnull : Json
  | jbool (b : Bool) : Json
  | jnum (n : Int) : Json
  | jstr (s : List Nat) : Json
  | jarr (xs : List Json) : Json
  | jobj (fields : List (List Nat × Json)) : Json

/-- Code of the lower-case hexadecimal digit for `n < 16`. -/
def hexDigitCode (n : Nat) : Nat :=
  if n < 10 then 48 + n else 87 + n

/-- ECMA-262 `QuoteJSONString` escaping of one character: `"` and `\` get a
backslash escape, the named control characters get their two-character
escapes, the remaining control characters become `\u00XX`, and every other
character (including all non-ASCII characters) is passed through verbatim. -/
def escapeJSONChar (c : Nat) : List Nat :=
  if c = 34 then [92, 34]
  else if c = 92 then [92, 92]
  else if c = 8 then [92, 98]
  else if c = 9 then [92, 116]
  else if c = 10 then [92, 110]
  else if c = 12 then [92, 102]
  else if c = 13 then [92, 114]
  else if c < 32 then [92, 117, 48, 48, hexDigitCode (c / 16), hexDigitCode (c % 16)]
  else [c]

/-- ECMA-262 `QuoteJSONString`: a double quote, the escaped characters, a
double quote. -/
def quoteJSONString (s : List Nat) : List Nat :=
  [34] ++ (s.map escapeJSONChar).flatten ++ [34]

/-- Decimal representation of an integer, as character codes. -/
def intCodes (n : Int) : List Nat :=
  (toString n).toList.map Char.toNat

mutual

/-- `JSON.stringify`, following the ECMA-262 `SerializeJSONProperty`
algorithm on the modelled JSON values. -/
def jsonStringify : Json → List Nat
  | Json.jnull => [110, 117, 108, 108]
  | Json.jbool true => [116, 114, 117, 101]
  | Json.jbool false => [102, 97, 108, 115, 101]
  | Json.jnum n => intCodes n
  | Json.jstr s => quoteJSONString s
  | Json.jarr xs => [91] ++ jsonStringifyArr xs ++ [93]
  | Json.jobj fs => [123] ++ jsonStringifyObj fs ++ [125]

/-- Comma-separated serialization of a JSON array's elements. -/
def jsonStringifyArr : List Json → List Nat
  | [] => []
  | [x] => jsonStringify x
  | x :: y :: xs => jsonStringify x ++ [44] ++ jsonStringifyArr (y :: xs)

/-- Comma-separated serialization of a JSON object's fields. -/
def jsonStringifyObj : List (List Nat × Json) → List Nat
  | [] => []
  | [(k, v)] => quoteJSONString k ++ [58] ++ jsonStringify v
  | (k, v) :: f :: fs =>
      quoteJSONString k ++ [58] ++ jsonStringify v ++ [44] ++ jsonStringifyObj (f :: fs)

end

/-- The instrumentation event kinds referenced by the core (the TypeScript
`Instrumentation` const enum). -/
inductive Instrumentation where
  | JsError : Instrumentation
  | XhrError : Instrumentation
  | ShadowDomInconsistent : Instrumentation
  | ClarityDuplicated : Instrumentation
  | PerformanceStateError : Instrumentation
  | NavigationTiming : Instrumentation
  | ResourceTiming : Instrumentation
deriving DecidableEq

/-- The two facets of an `IEvent` that the worker reads: the value handed to
`JSON.stringify`, and `event.state && event.state.type` (absent when the
event carries no `state`). -/
structure IEvent where
  json : Json
  stateType : Option Instrumentation

/-- Session metadata (`IImpressionMetadata`); only `impressionId` is read by
the worker itself, the rest rides along opaquely. -/
structure IImpressionMetadata where
  impressionId : List Nat
deriving DecidableEq

/-- The slice of `IConfig` the worker consumes. -/
structure IConfig where
  batchLimit : Nat
deriving DecidableEq

/-- The envelope placed on every uploaded batch. -/
structure IEnvelope where
  impressionId : List Nat
  sequenceNumber : Nat
  time : Int
deriving DecidableEq

/-- The payload the worker serializes, compresses and posts; `metadata` is
`some` exactly when the worker attached the session metadata. -/
structure IPayload where
  envelope : IEnvelope
  events : List IEvent
  metadata : Option IImpressionMetadata

/-- The `CompressedBatch` message posted back to the foreground.  The
compression codec is external to the repository (a pure string-to-string
function, per the spec), so the message carries the structured payload that
the source stringifies and compresses, together with the event count. -/
structure ICompressedBatchMessage where
  payload : IPayload
  eventCount : Nat

/-- Mutable state of the worker context: pending events, accumulated
serialized length, next sequence number, and the single-XhrError flag. -/
structure WorkerState where
  nextBatchEvents : List IEvent
  nextBatchBytes : Nat
  sequence : Nat
  nextBatchIsSingleXhrErrorEvent : Bool

/-- The worker's initial state: empty batch, zero bytes, sequence 0, flag
down. -/
def initialWorkerState : WorkerState :=
  { nextBatchEvents := [], nextBatchBytes := 0, sequence := 0,
    nextBatchIsSingleXhrErrorEvent := false }

/-- `postNextBatchToCore(time)`: iff the pending batch is non-empty and is
not a single-XhrError batch, build the envelope (post-incrementing
`sequence`), attach metadata exactly when `sequenceNumber === 0`, emit the
`CompressedBatch` message, and clear the pending events and byte count (the
single-XhrError flag is not touched).  Returns the new state and the list of
messages posted (empty or a singleton). -/
def postNextBatchToCore (metadata : IImpressionMetadata) (time : Int)
    (s : WorkerState) : WorkerState × List ICompressedBatchMessage :=
  if 0 < s.nextBatchBytes ∧ s.nextBatchIsSingleXhrErrorEvent = false then
    let envelope : IEnvelope :=
      { impressionId := metadata.impressionId, sequenceNumber := s.sequence, time := time }
    let payload : IPayload :=
      { envelope := envelope, events := s.nextBatchEvents,
        metadata := if envelope.sequenceNumber = 0 then some metadata else none }
    ({ s with nextBatchEvents := [], nextBatchBytes := 0, sequence := s.sequence + 1 },
     [{ payload := payload, eventCount := s.nextBatchEvents.length }])
  else
    (s, [])

/-- Whether `event.state && event.state.type === Instrumentation.XhrError`
is truthy. -/
def isXhrErrorEvent (e : IEvent) : Bool :=
  e.stateType = some Instrumentation.XhrError

/-- `addEvent(event, time)`: serialize the event (`eventStr.length` is the
UTF-16 code-unit count of `JSON.stringify(event)`); if the pending batch is
non-empty and appending would exceed `batchLimit`, post the pending batch
first; append the event, accumulate the length, and recompute the
single-XhrError flag (`nextBatchEvents.length === 1` after the push, and the
event's state type is `XhrError`); finally, if the accumulated length
reached `batchLimit`, post again. -/
def addEvent (cfg : IConfig) (metadata : IImpressionMetadata) (event : IEvent)
    (time : Int) (s : WorkerState) : WorkerState × List ICompressedBatchMessage :=
  let eventStrLength := utf16Length (jsonStringify event.json)
  let step1 :=
    if 0 < s.nextBatchBytes ∧ cfg.batchLimit < s.nextBatchBytes + eventStrLength then
      postNextBatchToCore metadata time s
    else
      (s, [])
  let s1 := step1.1
  let s2 : WorkerState :=
    { s1 with
      nextBatchEvents := s1.nextBatchEvents ++ [event],
      nextBatchBytes := s1.nextBatchBytes + eventStrLength,
      nextBatchIsSingleXhrErrorEvent :=
        (s1.nextBatchEvents ++ [event]).length = 1 ∧ isXhrErrorEvent event = true }
  let step2 :=
    if cfg.batchLimit ≤ s2.nextBatchBytes then
      postNextBatchToCore metadata time s2
    else
      (s2, [])
  (step2.1, step1.2 ++ step2.2)

/-- The two message kinds the worker's `onmessage` handles. -/
inductive WorkerMessage where
  | addEventMsg (event : IEvent) (time : Int) : WorkerMessage
  | forceCompression (time : Int) : WorkerMessage

/-- The worker's `onmessage` dispatch. -/
def onWorkerMessage (cfg : IConfig) (metadata : IImpressionMetadata)
    (msg : WorkerMessage) (s : WorkerState) : WorkerState × List ICompressedBatchMessage :=
  match msg with
  | WorkerMessage.addEventMsg event time => addEvent cfg metadata event time s
  | WorkerMessage.forceCompression time => postNextBatchToCore metadata time s

/-- Run the worker on a list of incoming messages, collecting every
`CompressedBatch` message it posts, in order. -/
def runWorker (cfg : IConfig) (metadata : IImpressionMetadata) :
    List WorkerMessage → WorkerState → WorkerState × List ICompressedBatchMessage
  | [], s => (s, [])
  | msg :: msgs, s =>
      let step := onWorkerMessage cfg metadata msg s
      let rest := runWorker cfg metadata msgs step.1
      (rest.1, step.2 ++ rest.2)

/-- The sequence number carried by an emitted batch. -/
def seqOf (b : ICompressedBatchMessage) : Nat :=
  b.payload.envelope.sequenceNumber

/-- The emitted batches of one step carry exactly the sequence numbers from
the pre-state's counter up to the post-state's counter. -/
def SeqEmits (s s' : WorkerState) (out : List ICompressedBatchMessage) : Prop :=
  s.sequence ≤ s'.sequence ∧
    out.map seqOf = List.range' s.sequence (s'.sequence - s.sequence)

/-- The single-XhrError flag is up exactly when the pending batch is one
event whose kind is `XhrError`. -/
def FlagInv (s : WorkerState) : Prop :=
  s.nextBatchIsSingleXhrErrorEvent = true ↔
    ∃ e, s.nextBatchEvents = [e] ∧ isXhrErrorEvent e = true

/-- A concrete worker state with one pending plain event of 4 serialized
code units. -/
def pendingState : WorkerState :=
  { nextBatchEvents := [{ json := Json.jnull, stateType := none }],
    nextBatchBytes := 4, sequence := 1,
    nextBatchIsSingleXhrErrorEvent := false }

/-- A concrete worker state with one pending plain event counted at 3
serialized code units. -/
def pending3State : WorkerState :=
  { nextBatchEvents := [{ json := Json.jnull, stateType := none }],
    nextBatchBytes := 3, sequence := 0,
    nextBatchIsSingleXhrErrorEvent := false }

/-- A concrete configuration with `batchLimit` 6. -/
def cfg6 : IConfig :=
  { batchLimit := 6 }

/-- A concrete configuration with `batchLimit` 4. -/
def cfg4 : IConfig :=
  { batchLimit := 4 }

/-- A concrete event whose JSON serialization `{"d":"é"}` contains the
non-ASCII character U+00E9, kept verbatim by `JSON.stringify`. -/
def accentEvt : IEvent :=
  { json := Json.jobj [([100], Json.jstr [233])], stateType := none }

/-- A concrete plain (non-XhrError) event serializing to `null`. -/
def plainEvt : IEvent :=
  { json := Json.jnull, stateType := none }

/-- A concrete `XhrError` instrumentation event. -/
def xhrEvt : IEvent :=
  { json := Json.jnull, stateType := some Instrumentation.XhrError }

/-- A concrete configuration with `batchLimit` 100. -/
def cfg100 : IConfig :=
  { batchLimit := 100 }

/-- Concrete session metadata. -/
def md0 : IImpressionMetadata :=
  { impressionId := [105, 100] }

/-- A concrete worker state holding one suppressed XhrError event. -/
def suppressedXhrState : WorkerState :=
  { nextBatchEvents := [xhrEvt], nextBatchBytes := 4, sequence := 0,
    nextBatchIsSingleXhrErrorEvent := true }

namespace Layout

/-! Definitions for the Layout plugin. -/

/-- Index tree (`NumberJson`) built by `createIndexJson`: a node id (or
`null` for unindexed nodes) together with the children's trees. -/
inductive NumberJson where
  | node (id : Option Int) (children : List NumberJson) : NumberJson

/-- The slice of `IConfig` the Layout plugin consumes. -/
structure LayoutConfig where
  validateConsistency : Bool
deriving DecidableEq

/-- `ILayoutRoutineInfo`: either `{action: LayoutRoutine.DiscoverDom}` or
`{action: LayoutRoutine.Mutation, mutationSequence, batchSize}`. -/
inductive ILayoutRoutineInfo where
  | discoverDomInfo : ILayoutRoutineInfo
  | mutationInfo (mutationSequence : Nat) (batchSize : Nat) : ILayoutRoutineInfo
deriving DecidableEq

/-- `IShadowDomInconsistentEventState`: the diagnostic record built on a
divergence.  `firstEvent` is set only on the report that follows an earlier
unreported divergence. -/
inductive IShadowDomInconsistentEventState where
  | mk (dom : NumberJson) (shadowDom : NumberJson)
      (lastConsistentShadowDom : Option NumberJson)
      (lastAction : ILayoutRoutineInfo)
      (firstEvent : Option IShadowDomInconsistentEventState) :
      IShadowDomInconsistentEventState

/-- The live-DOM index tree carried by an inconsistency event. -/
def IShadowDomInconsistentEventState.dom : IShadowDomInconsistentEventState → NumberJson
  | IShadowDomInconsistentEventState.mk d _ _ _ _ => d

/-- The shadow index tree carried by an inconsistency event. -/
def IShadowDomInconsistentEventState.shadowDom :
    IShadowDomInconsistentEventState → NumberJson
  | IShadowDomInconsistentEventState.mk _ sd _ _ _ => sd

/-- The last known consistent tree carried by an inconsistency event. -/
def IShadowDomInconsistentEventState.lastConsistentShadowDom :
    IShadowDomInconsistentEventState → Option NumberJson
  | IShadowDomInconsistentEventState.mk _ _ lc _ _ => lc

/-- The description of the last routine carried by an inconsistency event. -/
def IShadowDomInconsistentEventState.lastAction :
    IShadowDomInconsistentEventState → ILayoutRoutineInfo
  | IShadowDomInconsistentEventState.mk _ _ _ la _ => la

/-- The earlier divergence attached to an inconsistency event, when any. -/
def IShadowDomInconsistentEventState.firstEvent :
    IShadowDomInconsistentEventState → Option IShadowDomInconsistentEventState
  | IShadowDomInconsistentEventState.mk _ _ _ _ fe => fe

/-- `Source` of a layout event. -/
inductive Source where
  | Discover : Source
  | Mutation : Source
  | Scroll : Source
  | Input : Source
deriving DecidableEq

/-- `Action` of a layout event. -/
inductive Action where
  | Insert : Action
  | Move : Action
  | Update : Action
  | Remove : Action
deriving DecidableEq

/-- `ILayoutEventInfo` as built by `processMutations`: live node identity,
its index (`getNodeIndex` may return `null`), source, action, timestamp. -/
structure ILayoutEventInfo where
  node : Nat
  index : Option Nat
  source : Source
  action : Action
  time : Int
deriving DecidableEq

/-- A shadow node as it appears in a mutation summary; only the live-node
reference is read by `processMutations`. -/
structure IShadowDomNode where
  node : Nat
deriving DecidableEq

/-- `IShadowDomMutationSummary`: the four disjoint classifications returned
by `ShadowDom.applyMutationBatch`. -/
structure IShadowDomMutationSummary where
  newNodes : List IShadowDomNode
  movedNodes : List IShadowDomNode
  updatedNodes : List IShadowDomNode
  removedNodes : List IShadowDomNode
deriving DecidableEq

/-- The Layout plugin fields involved in consistency tracking and mutation
ingestion. -/
structure LayoutTrackerState where
  inconsistentShadowDomCount : Nat
  firstShadowDomInconsistentEvent : Option IShadowDomInconsistentEventState
  lastConsistentDomJson : Option NumberJson
  mutationSequence : Nat
  domDiscoverComplete : Bool
  domPreDiscoverMutations : List (List ILayoutEventInfo)

/-- `Layout.reset()`: fresh per-session fields. -/
def resetLayoutState : LayoutTrackerState :=
  { inconsistentShadowDomCount := 0, firstShadowDomInconsistentEvent := none,
    lastConsistentDomJson := none, mutationSequence := 0,
    domDiscoverComplete := false, domPreDiscoverMutations := [] }

/-- What the ShadowDom mirror reports when `checkConsistency` queries it:
`isConsistent()`, the live-DOM index tree, and the shadow index tree.  The
`ShadowDom` class itself is an external collaborator of the modelled file,
so it enters as an oracle input. -/
structure ConsistencyInput where
  consistent : Bool
  domJson : NumberJson
  shadowDomJson : NumberJson

/-- `Layout.checkConsistency(lastActionInfo)`: when validation is enabled
and the shadow is inconsistent, bump `inconsistentShadowDomCount` and build
the diagnostic event; a first divergence is only stored in
`firstShadowDomInconsistentEvent`, while a second (or later) divergence is
instrumented with the stored first event attached; a consistent check
resets the counter, the stored first event, and records the tree as last
consistent.  Returns the new state and the instrumented events. -/
def checkConsistency (cfg : LayoutConfig) (input : ConsistencyInput)
    (lastActionInfo : ILayoutRoutineInfo) (s : LayoutTrackerState) :
    LayoutTrackerState × List IShadowDomInconsistentEventState :=
  if cfg.validateConsistency then
    if input.consistent = false then
      let count := s.inconsistentShadowDomCount + 1
      if count < 2 then
        ({ s with
            inconsistentShadowDomCount := count,
            firstShadowDomInconsistentEvent :=
                    some (IShadowDomInconsistentEventState.mk input.domJson
                      input.shadowDomJson s.lastConsistentDomJson lastActionInfo none) },
         [])
      else
        ({ s with inconsistentShadowDomCount := count },
         [IShadowDomInconsistentEventState.mk input.domJson input.shadowDomJson
            s.lastConsistentDomJson lastActionInfo s.firstShadowDomInconsistentEvent])
    else
      ({ s with
          inconsistentShadowDomCount := 0,
          firstShadowDomInconsistentEvent := none,
          lastConsistentDomJson := some input.domJson },
       [])
  else
    (s, [])

/-- `Layout.allowMutation()`:
`inconsistentShadowDomCount < 2 || !config.validateConsistency`. -/
def allowMutation (cfg : LayoutConfig) (s : LayoutTrackerState) : Bool :=
  decide (s.inconsistentShadowDomCount < 2) || !cfg.validateConsistency

/-- `Layout.processMutations(summary, time)`: four sequential loops pushing
one `ILayoutEventInfo` per summary entry — inserts from `newNodes`, then
moves from `movedNodes`, then updates from `updatedNodes`, then removes from
`removedNodes`, each with `source = Mutation` and the batch timestamp. -/
def processMutations (getNodeIdx : Nat → Option Nat)
    (summary : IShadowDomMutationSummary) (time : Int) : List ILayoutEventInfo :=
  (summary.newNodes.map fun sn =>
    { node := sn.node, index := getNodeIdx sn.node, source := Source.Mutation,
      action := Action.Insert, time := time })
  ++ (summary.movedNodes.map fun sn =>
    { node := sn.node, index := getNodeIdx sn.node, source := Source.Mutation,
      action := Action.Move, time := time })
  ++ (summary.updatedNodes.map fun sn =>
    { node := sn.node, index := getNodeIdx sn.node, source := Source.Mutation,
      action := Action.Update, time := time })
  ++ (summary.removedNodes.map fun sn =>
    { node := sn.node, index := getNodeIdx sn.node, source := Source.Mutation,
      action := Action.Remove, time := time })

/-- What the external ShadowDom mirror does for one observed batch: the raw
batch size, the classification summary `applyMutationBatch` returns, the
consistency oracle after application, and the node-index lookup. -/
structure MutationOracle where
  batchSize : Nat
  summary : IShadowDomMutationSummary
  inputAfter : ConsistencyInput
  getNodeIdx : Nat → Option Nat

/-- Result of one `Layout.mutation` callback: the new tracker state, the
instrumented inconsistency events, the layout events dispatched to the
pipeline (empty when they were queued pre-discovery or dropped), and whether
the batch was applied to the shadow mirror at all. -/
structure MutationOutcome where
  st : LayoutTrackerState
  inconsistencyEvents : List IShadowDomInconsistentEventState
  layoutEvents : List ILayoutEventInfo
  applied : Bool

/-- `Layout.mutation(mutations)`: if mutations are allowed, apply the batch
to the shadow mirror, check consistency, and — if still allowed — turn the
summary into layout events, dispatching them when discovery is complete and
queueing them in `domPreDiscoverMutations` otherwise; if mutations are not
allowed the batch is received but not applied.  `mutationSequence` is
incremented on every path. -/
def mutation (cfg : LayoutConfig) (orc : MutationOracle) (time : Int)
    (s : LayoutTrackerState) : MutationOutcome :=
  if allowMutation cfg s then
    let actionInfo := ILayoutRoutineInfo.mutationInfo s.mutationSequence orc.batchSize
    let checked := checkConsistency cfg orc.inputAfter actionInfo s
    let s1 := checked.1
    if allowMutation cfg s1 then
      let events := processMutations orc.getNodeIdx orc.summary time
      if s1.domDiscoverComplete then
        { st := { s1 with mutationSequence := s1.mutationSequence + 1 },
          inconsistencyEvents := checked.2, layoutEvents := events, applied := true }
      else
        { st := { s1 with
                  domPreDiscoverMutations := s1.domPreDiscoverMutations ++ [events],
                  mutationSequence := s1.mutationSequence + 1 },
          inconsistencyEvents := checked.2, layoutEvents := [], applied := true }
    else
      { st := { s1 with mutationSequence := s1.mutationSequence + 1 },
        inconsistencyEvents := checked.2, layoutEvents := [], applied := true }
  else
    { st := { s with mutationSequence := s.mutationSequence + 1 },
      inconsistencyEvents := [], layoutEvents := [], applied := false }

/-- The scroll-relevant slice of `IElementLayoutState`; scroll offsets are
the values recorded by the handler (`Math.round` of the element's scroll
offsets, hence integers). -/
structure IElementLayoutState where
  index : Nat
  scrollX : Int
  scrollY : Int
  source : Source
  action : Action
deriving DecidableEq

/-- The Layout plugin's `distanceThreshold` (5). -/
def distanceThreshold : Int := 5

/-- `Layout.checkDistance(stateOne, stateTwo)`:
`dx*dx + dy*dy > distanceThreshold * distanceThreshold`. -/
def checkDistance (stateOne stateTwo : IElementLayoutState) : Bool :=
  let dx := stateOne.scrollX - stateTwo.scrollX
  let dy := stateOne.scrollY - stateTwo.scrollY
  decide (dx * dx + dy * dy > distanceThreshold * distanceThreshold)

/-- The `Source.Scroll` branch of `Layout.layoutHandler` for one watched
index: deep-copy the last recorded layout state, overwrite the scroll
offsets (already rounded) and mark `source = Scroll`, `action = Update`;
suppress the event when the last state exists and `checkDistance` fails;
otherwise record the new state and emit it.  Returns the new
`layoutStates[index]` and the emitted events. -/
def layoutHandlerScroll (lastLayoutState : IElementLayoutState)
    (scrollLeft scrollTop : Int) : IElementLayoutState × List IElementLayoutState :=
  let newLayoutState : IElementLayoutState :=
    { lastLayoutState with
      source := Source.Scroll, action := Action.Update,
      scrollX := scrollLeft, scrollY := scrollTop }
  if checkDistance lastLayoutState newLayoutState = false then
    (lastLayoutState, [])
  else
    (newLayoutState, [newLayoutState])

/-- Repeated scroll callbacks on the same index with no interleaved writes
to `layoutStates[index]` from other sources. -/
def runScrollHandlers (lastLayoutState : IElementLayoutState) :
    List (Int × Int) → IElementLayoutState × List IElementLayoutState
  | [] => (lastLayoutState, [])
  | pos :: rest =>
      let step := layoutHandlerScroll lastLayoutState pos.1 pos.2
      let next := runScrollHandlers step.1 rest
      (next.1, step.2 ++ next.2)

/-- An entry of `originalLayouts`: a node recorded with a dummy layout at
discovery time, waiting for backfill. -/
structure OriginalLayoutEntry where
  node : Nat
  index : Nat
deriving DecidableEq

/-- The `IEventData` pushed for one backfilled node: `source = Discover`,
`action = Insert`, and the `time` argument of `backfillLayoutsAsync`. -/
structure BackfillEvent where
  index : Nat
  source : Source
  action : Action
  time : Int
deriving DecidableEq

/-- One run of the `while` loop body of `backfillLayoutsAsync`, processing
at most `k` queue entries (`k` models how many iterations fit before
`getTimestamp(true)` reaches the yield deadline). -/
def backfillProcess (time : Int) : Nat → List OriginalLayoutEntry →
    List BackfillEvent × List OriginalLayoutEntry
  | 0, queue => ([], queue)
  | _ + 1, [] => ([], [])
  | k + 1, entry :: rest =>
      let ev : BackfillEvent :=
        { index := entry.index, source := Source.Discover,
          action := Action.Insert, time := time }
      let r := backfillProcess time k rest
      (ev :: r.1, r.2)

/-- `Layout.backfillLayoutsAsync(time, onDomDiscoverComplete)`: process
queue entries until the time slice expires, emit the batched events, and —
if entries remain — re-schedule itself through a zero-delay timer with the
same `time` argument.  `slices` is the per-tick iteration budget decided by
the clock; when it is exhausted with entries remaining, the model cuts the
run off (the remaining queue is returned).  Returns all emitted events and
the unprocessed queue. -/
def backfillLayoutsAsync (time : Int) : List Nat → List OriginalLayoutEntry →
    List BackfillEvent × List OriginalLayoutEntry
  | [], queue => ([], queue)
  | k :: slices, queue =>
      let slice := backfillProcess time k queue
      if slice.2.isEmpty then
        (slice.1, [])
      else
        let rest := backfillLayoutsAsync time slices slice.2
        (slice.1 ++ rest.1, rest.2)

/-- `Layout.discoverDom()`: capture `discoverTime = getTimestamp()` at DOM
discovery and schedule `backfillLayoutsAsync` with that timestamp; every
later backfill slice reuses it. -/
def discoverDom (discoverTime : Int) (slices : List Nat)
    (queue : List OriginalLayoutEntry) :
    List BackfillEvent × List OriginalLayoutEntry :=
  backfillLayoutsAsync discoverTime slices queue

/-- A configuration with consistency validation enabled. -/
def cfgT : LayoutConfig :=
  { validateConsistency := true }

/-- A concrete index tree. -/
def tree0 : NumberJson :=
  NumberJson.node none []

/-- A concrete inconsistent ShadowDom report. -/
def badInput : ConsistencyInput :=
  { consistent := false, domJson := tree0, shadowDomJson := tree0 }

/-- A concrete consistent ShadowDom report. -/
def goodInput : ConsistencyInput :=
  { consistent := true, domJson := tree0, shadowDomJson := tree0 }

/-- A tracker state after exactly one unreported divergence. -/
def oneInconsistentState : LayoutTrackerState :=
  { resetLayoutState with inconsistentShadowDomCount := 1 }

/-- A tracker state in degraded mode (two consecutive divergences). -/
def degradedState : LayoutTrackerState :=
  { resetLayoutState with inconsistentShadowDomCount := 2 }

/-- An empty mutation summary. -/
def emptySummary : IShadowDomMutationSummary :=
  { newNodes := [], movedNodes := [], updatedNodes := [], removedNodes := [] }

/-- A concrete mutation-batch oracle. -/
def orc0 : MutationOracle :=
  { batchSize := 0, summary := emptySummary, inputAfter := badInput,
    getNodeIdx := fun _ => none }

/-- Position of an action in the insert → move → update → remove order. -/
def actionRank : Action → Nat
  | Action.Insert => 0
  | Action.Move => 1
  | Action.Update => 2
  | Action.Remove => 3

/-- Two recorded layout states are farther apart than the 5-pixel
threshold: the squared Euclidean distance of their scroll offsets exceeds
`distanceThreshold²` (for integers, equivalent to Euclidean distance
strictly greater than 5). -/
def scrollFar (a b : IElementLayoutState) : Prop :=
  (a.scrollX - b.scrollX) * (a.scrollX - b.scrollX)
    + (a.scrollY - b.scrollY) * (a.scrollY - b.scrollY)
    > distanceThreshold * distanceThreshold

/-- A concrete discovery-time queue of two placeholder entries. -/
def queue2 : List OriginalLayoutEntry :=
  [{ node := 7, index := 3 }, { node := 8, index := 4 }]

/-- The backfill event expected for the first entry of `queue2` when the
discovery timestamp is 42. -/
def backfillEvt3 : BackfillEvent :=
  { index := 3, source := Source.Discover, action := Action.Insert, time := 42 }

/-- A concrete recorded layout state at scroll offset (0, 0). -/
def scrolledState : IElementLayoutState :=
  { index := 1, scrollX := 0, scrollY := 0, source := Source.Discover,
    action := Action.Insert }

end Layout

/-! Theorems about the compression-worker Batcher. -/

theorem seqEmits_nil (s : WorkerState) : SeqEmits s s [] := by
  constructor
  · exact Nat.le_refl _
  · simp [List.range'_eq_nil]

theorem seqEmits_comp {s s' s'' : WorkerState}
    {o1 o2 : List ICompressedBatchMessage}
    (h1 : SeqEmits s s' o1) (h2 : SeqEmits s' s'' o2) :
    SeqEmits s s'' (o1 ++ o2) := by
  obtain ⟨le1, e1⟩ := h1
  obtain ⟨le2, e2⟩ := h2
  refine ⟨Nat.le_trans le1 le2, ?_⟩
  rw [List.map_append, e1, e2]
  have happ := List.range'_append s.sequence (s'.sequence - s.sequence)
    (s''.sequence - s'.sequence) 1
  have hs : s.sequence + 1 * (s'.sequence - s.sequence) = s'.sequence := by omega
  have hn : s''.sequence - s'.sequence + (s'.sequence - s.sequence)
      = s''.sequence - s.sequence := by omega
  rw [hs, hn] at happ
  simpa using happ

theorem seqEmits_post (metadata : IImpressionMetadata) (time : Int)
    (s : WorkerState) :
    SeqEmits s (postNextBatchToCore metadata time s).1
      (postNextBatchToCore metadata time s).2 := by
  unfold postNextBatchToCore
  by_cases h : 0 < s.nextBatchBytes ∧ s.nextBatchIsSingleXhrErrorEvent = false
  · simp only [h, if_pos]
    refine ⟨Nat.le_succ _, ?_⟩
    simp [seqOf, List.range']
  · simp only [h, if_neg, not_false_eq_true]
    exact seqEmits_nil s

theorem seqEmits_of_seq_eq {s s' s'' : WorkerState}
    {out : List ICompressedBatchMessage} (h : s.sequence = s'.sequence)
    (h2 : SeqEmits s' s'' out) : SeqEmits s s'' out := by
  unfold SeqEmits at h2 ⊢
  rw [h]
  exact h2

theorem seqEmits_addEvent (cfg : IConfig) (metadata : IImpressionMetadata)
    (event : IEvent) (time : Int) (s : WorkerState) :
    SeqEmits s (addEvent cfg metadata event time s).1
      (addEvent cfg metadata event time s).2 := by
  unfold addEvent
  by_cases h1 : 0 < s.nextBatchBytes ∧
      cfg.batchLimit < s.nextBatchBytes + utf16Length (jsonStringify event.json)
  · simp only [if_pos h1]
    refine seqEmits_comp (seqEmits_post metadata time s) ?_
    split
    · refine seqEmits_of_seq_eq ?_ (seqEmits_post metadata time _)
      rfl
    · refine seqEmits_of_seq_eq ?_ (seqEmits_nil _)
      rfl
  · simp only [if_neg h1]
    refine seqEmits_comp (seqEmits_nil s) ?_
    split
    · refine seqEmits_of_seq_eq ?_ (seqEmits_post metadata time _)
      rfl
    · refine seqEmits_of_seq_eq ?_ (seqEmits_nil _)
      rfl

theorem seqEmits_onMessage (cfg : IConfig) (metadata : IImpressionMetadata)
    (msg : WorkerMessage) (s : WorkerState) :
    SeqEmits s (onWorkerMessage cfg metadata msg s).1
      (onWorkerMessage cfg metadata msg s).2 := by
  cases msg with
  | addEventMsg event time => exact seqEmits_addEvent cfg metadata event time s
  | forceCompression time => exact seqEmits_post metadata time s

theorem seqEmits_run (cfg : IConfig) (metadata : IImpressionMetadata)
    (msgs : List WorkerMessage) (s : WorkerState) :
    SeqEmits s (runWorker cfg metadata msgs s).1 (runWorker cfg metadata msgs s).2 := by
  induction msgs generalizing s with
  | nil => exact seqEmits_nil s
  | cons msg msgs ih =>
      exact seqEmits_comp (seqEmits_onMessage cfg metadata msg s)
        (ih (onWorkerMessage cfg metadata msg s).1)

/-- C1: For every session, the sequence numbers carried by the batches the
Batcher emits form a gap-free prefix `0, 1, …, k-1` of the natural numbers:
starting the worker in its initial state (counter 0) and feeding it any
sequence of messages, the emitted batches carry exactly the sequence
numbers `List.range k`, where `k` is the final counter value — the counter
is incremented only inside a successful flush, so no emitted sequence
number is skipped or repeated. -/
theorem c1_batcher_sequence_numbers_gap_free (cfg : IConfig)
    (metadata : IImpressionMetadata) (msgs : List WorkerMessage) :
    (runWorker cfg metadata msgs initialWorkerState).2.map seqOf
      = List.range (runWorker cfg metadata msgs initialWorkerState).1.sequence := by
  have h := seqEmits_run cfg metadata msgs initialWorkerState
  obtain ⟨-, e⟩ := h
  rw [e, List.range_eq_range']
  rfl

theorem flagInv_initial : FlagInv initialWorkerState := by
  simp [FlagInv, initialWorkerState]

theorem flagInv_post (metadata : IImpressionMetadata) (time : Int)
    (s : WorkerState) (h : FlagInv s) :
    FlagInv (postNextBatchToCore metadata time s).1 := by
  unfold postNextBatchToCore
  split
  next hc => simp [FlagInv, hc.2]
  next => exact h

theorem flagInv_append (event : IEvent) (s1 : WorkerState) (n : Nat) :
    FlagInv { s1 with
              nextBatchEvents := s1.nextBatchEvents ++ [event],
              nextBatchBytes := n,
              nextBatchIsSingleXhrErrorEvent :=
                (s1.nextBatchEvents ++ [event]).length = 1 ∧
                  isXhrErrorEvent event = true } := by
  unfold FlagInv
  cases hE : s1.nextBatchEvents with
  | nil => simp
  | cons a as => simp

theorem flagInv_addEvent (cfg : IConfig) (metadata : IImpressionMetadata)
    (event : IEvent) (time : Int) (s : WorkerState) :
    FlagInv (addEvent cfg metadata event time s).1 := by
  unfold addEvent
  dsimp only
  split
  · split
    · exact flagInv_post metadata time _ (flagInv_append event _ _)
    · exact flagInv_append event _ _
  · split
    · exact flagInv_post metadata time _ (flagInv_append event _ _)
    · exact flagInv_append event _ _

theorem flagInv_run (cfg : IConfig) (metadata : IImpressionMetadata)
    (msgs : List WorkerMessage) (s : WorkerState) (h : FlagInv s) :
    FlagInv (runWorker cfg metadata msgs s).1 := by
  induction msgs generalizing s with
  | nil => exact h
  | cons msg msgs ih =>
      cases msg with
      | addEventMsg event time =>
          exact ih (addEvent cfg metadata event time s).1
            (flagInv_addEvent cfg metadata event time s)
      | forceCompression time =>
          exact ih (postNextBatchToCore metadata time s).1
            (flagInv_post metadata time s h)

/-- C4: A Batcher flush emits a `CompressedBatch` if and only if the pending
batch is non-empty (`nextBatchBytes > 0`) and is not a single-XhrError
batch; in every reachable worker state the single-XhrError flag is up if and
only if the batch contains exactly one event and that event's kind is
`XhrError`; and every emitted payload carries the session metadata exactly
when its envelope's `sequenceNumber` is 0. -/
theorem c4_flush_iff_nonEmpty_not_singleXhr (cfg : IConfig)
    (metadata : IImpressionMetadata) (time : Int) (s : WorkerState)
    (msgs : List WorkerMessage) :
    ((postNextBatchToCore metadata time s).2 ≠ [] ↔
        0 < s.nextBatchBytes ∧ s.nextBatchIsSingleXhrErrorEvent = false)
    ∧ (∀ b ∈ (postNextBatchToCore metadata time s).2,
        b.payload.metadata = some metadata ↔ b.payload.envelope.sequenceNumber = 0)
    ∧ ((runWorker cfg metadata msgs initialWorkerState).1.nextBatchIsSingleXhrErrorEvent
          = true ↔
        ∃ e, (runWorker cfg metadata msgs initialWorkerState).1.nextBatchEvents = [e]
              ∧ isXhrErrorEvent e = true) := by
  refine ⟨?_, ?_, flagInv_run cfg metadata msgs initialWorkerState flagInv_initial⟩
  · unfold postNextBatchToCore
    split
    next hc => simpa using hc
    next hc => simpa using hc
  · unfold postNextBatchToCore
    split
    next hc =>
      intro b hb
      simp only [List.mem_singleton] at hb
      subst hb
      by_cases hs : s.sequence = 0 <;> simp [hs]
    next =>
      intro b hb
      simp at hb

/-- Witness for C4 at a concrete pending state and a concrete message
run. -/
theorem c4_flush_iff_nonEmpty_not_singleXhr_witness :
    ((postNextBatchToCore md0 5 pendingState).2 ≠ [] ↔
        0 < pendingState.nextBatchBytes ∧
          pendingState.nextBatchIsSingleXhrErrorEvent = false)
    ∧ (∀ b ∈ (postNextBatchToCore md0 5 pendingState).2,
        b.payload.metadata = some md0 ↔ b.payload.envelope.sequenceNumber = 0)
    ∧ ((runWorker cfg100 md0 [WorkerMessage.addEventMsg xhrEvt 0]
          initialWorkerState).1.nextBatchIsSingleXhrErrorEvent = true ↔
        ∃ e, (runWorker cfg100 md0 [WorkerMessage.addEventMsg xhrEvt 0]
              initialWorkerState).1.nextBatchEvents = [e]
            ∧ isXhrErrorEvent e = true) :=
  c4_flush_iff_nonEmpty_not_singleXhr cfg100 md0 5 pendingState
    [WorkerMessage.addEventMsg xhrEvt 0]

/-- C5: (first conjunct) if the pending batch is non-empty, would overflow
`batchLimit` by appending the event, and is not flush-suppressed, then
`addEvent` first emits a batch containing exactly the old pending events —
the flush precedes the append, so the new event is not in it; (second
conjunct) an event whose serialization alone reaches `batchLimit`, added to
an empty batch, is flushed by itself by the second flush check: the only
batch emitted carries just that event, and the pending batch ends empty. -/
theorem c5_addEvent_batch_limit_discipline (cfg : IConfig)
    (metadata : IImpressionMetadata) (event : IEvent) (time : Int)
    (s : WorkerState) :
    ((0 < s.nextBatchBytes →
      cfg.batchLimit < s.nextBatchBytes + utf16Length (jsonStringify event.json) →
      s.nextBatchIsSingleXhrErrorEvent = false →
      ∃ b rest, (addEvent cfg metadata event time s).2 = b :: rest ∧
        b.payload.events = s.nextBatchEvents ∧
        b.payload.envelope.sequenceNumber = s.sequence))
    ∧ (s.nextBatchEvents = [] → s.nextBatchBytes = 0 →
      s.nextBatchIsSingleXhrErrorEvent = false →
      0 < cfg.batchLimit →
      cfg.batchLimit ≤ utf16Length (jsonStringify event.json) →
      isXhrErrorEvent event = false →
      ∃ b, (addEvent cfg metadata event time s).2 = [b] ∧
        b.payload.events = [event] ∧
        (addEvent cfg metadata event time s).1.nextBatchEvents = [] ∧
        (addEvent cfg metadata event time s).1.nextBatchBytes = 0) := by
  constructor
  · intro hpos hover hflag
    unfold addEvent
    dsimp only
    rw [if_pos ⟨hpos, hover⟩]
    unfold postNextBatchToCore
    rw [if_pos ⟨hpos, hflag⟩]
    split
    · exact ⟨_, _, rfl, rfl, rfl⟩
    · exact ⟨_, _, rfl, rfl, rfl⟩
  · intro hnil hzero hflag hlim hlen hxhr
    unfold addEvent
    dsimp only
    have h1 : ¬(0 < s.nextBatchBytes ∧
        cfg.batchLimit < s.nextBatchBytes + utf16Length (jsonStringify event.json)) := by
      rw [hzero]; omega
    rw [if_neg h1]
    have h2 : cfg.batchLimit ≤ s.nextBatchBytes + utf16Length (jsonStringify event.json) := by
      omega
    rw [if_pos h2]
    unfold postNextBatchToCore
    have h3 : 0 < s.nextBatchBytes + utf16Length (jsonStringify event.json) := by
      omega
    have h4 : (decide ((s.nextBatchEvents ++ [event]).length = 1 ∧
        isXhrErrorEvent event = true) : Bool) = false := by
      rw [hnil]
      simp [hxhr]
    rw [if_pos ⟨h3, h4⟩]
    refine ⟨_, rfl, ?_, rfl, rfl⟩
    simp [hnil]

/-- Witness for C5: a pending 3-unit batch plus a 4-unit event overflows
`batchLimit` 6 and is flushed first; a lone 4-unit event against
`batchLimit` 4 is flushed by itself. -/
theorem c5_addEvent_batch_limit_discipline_witness :
    (∃ b rest, (addEvent cfg6 md0 plainEvt 0 pending3State).2 = b :: rest ∧
      b.payload.events = pending3State.nextBatchEvents ∧
      b.payload.envelope.sequenceNumber = pending3State.sequence)
    ∧ (∃ b, (addEvent cfg4 md0 plainEvt 0 initialWorkerState).2 = [b] ∧
      b.payload.events = [plainEvt] ∧
      (addEvent cfg4 md0 plainEvt 0 initialWorkerState).1.nextBatchEvents = [] ∧
      (addEvent cfg4 md0 plainEvt 0 initialWorkerState).1.nextBatchBytes = 0) :=
  ⟨(c5_addEvent_batch_limit_discipline cfg6 md0 plainEvt 0 pending3State).1
      (by decide) (by decide) rfl,
   (c5_addEvent_batch_limit_discipline cfg4 md0 plainEvt 0 initialWorkerState).2
      rfl rfl rfl (by decide) (by decide) rfl⟩

/-- C9 counterexample: for the event serializing to `{"d":"é"}` (U+00E9 is
kept verbatim by `JSON.stringify`), the length `addEvent` accumulates into
`nextBatchBytes` is the UTF-16 code-unit count 9 of the serialization, not
its UTF-8 byte count 10 — so the accumulated length is NOT the byte count
of the event's UTF-8 serialization. -/
theorem c9_counterexample_utf16_not_utf8 :
    (addEvent cfg100 md0 accentEvt 0 initialWorkerState).1.nextBatchBytes
      ≠ utf8ByteLength (jsonStringify accentEvt.json) := by
  decide

/-- C9 (amended): the length the Batcher accumulates into `nextBatchBytes`
and compares against `batchLimit` is the UTF-16 code-unit count of the
event's JSON serialization (the JavaScript string `length`), which agrees
with the UTF-8 byte count only when the serialization is pure ASCII: when
no flush fires, `nextBatchBytes` grows by exactly
`utf16Length (jsonStringify event)`. -/
theorem c9_accumulates_utf16_code_units (cfg : IConfig)
    (metadata : IImpressionMetadata) (event : IEvent) (time : Int)
    (s : WorkerState)
    (h : s.nextBatchBytes + utf16Length (jsonStringify event.json) < cfg.batchLimit) :
    (addEvent cfg metadata event time s).1.nextBatchBytes
      = s.nextBatchBytes + utf16Length (jsonStringify event.json) := by
  obtain ⟨ev0, nb, sq, fl⟩ := s
  have hlt : nb + utf16Length (jsonStringify event.json) < cfg.batchLimit := h
  unfold addEvent
  dsimp only
  have h1 : ¬(0 < nb ∧
      cfg.batchLimit < nb + utf16Length (jsonStringify event.json)) := by omega
  rw [if_neg h1]
  dsimp only
  have h2 : ¬(cfg.batchLimit ≤ nb + utf16Length (jsonStringify event.json)) := by
    omega
  rw [if_neg h2]

/-- Witness for C9's amended theorem at the event `null` in the initial
state. -/
theorem c9_accumulates_utf16_code_units_witness :
    0 + utf16Length (jsonStringify plainEvt.json) < cfg100.batchLimit ∧
    (addEvent cfg100 md0 plainEvt 0 initialWorkerState).1.nextBatchBytes
      = initialWorkerState.nextBatchBytes + utf16Length (jsonStringify plainEvt.json) :=
  ⟨by decide, c9_accumulates_utf16_code_units cfg100 md0 plainEvt 0
    initialWorkerState (by decide)⟩

theorem postNextBatch_emits (metadata : IImpressionMetadata) (time : Int)
    (s : WorkerState) (h1 : 0 < s.nextBatchBytes)
    (h2 : s.nextBatchIsSingleXhrErrorEvent = false) :
    (postNextBatchToCore metadata time s).2
        = [ICompressedBatchMessage.mk
            (IPayload.mk (IEnvelope.mk metadata.impressionId s.sequence time)
              s.nextBatchEvents
              (if s.sequence = 0 then some metadata else none))
            s.nextBatchEvents.length]
      ∧ (postNextBatchToCore metadata time s).1
        = WorkerState.mk [] 0 (s.sequence + 1)
            s.nextBatchIsSingleXhrErrorEvent := by
  unfold postNextBatchToCore
  rw [if_pos ⟨h1, h2⟩]
  exact ⟨rfl, rfl⟩

theorem postNextBatch_empty (metadata : IImpressionMetadata) (time : Int)
    (ev : List IEvent) (sq : Nat) (f : Bool) :
    postNextBatchToCore metadata time (WorkerState.mk ev 0 sq f)
      = (WorkerState.mk ev 0 sq f, []) := by
  unfold postNextBatchToCore
  rw [if_neg (by simp)]

/-- C10: (first conjunct) a flush on a state whose single-XhrError flag is
up is a no-op: the state is returned entirely unchanged — the event stays
buffered, `nextBatchBytes` is not reset, `sequence` does not advance — and
nothing is emitted; (second conjunct) after any further event arrives the
flag is cleared, so the first batch emitted from that point (by `addEvent`'s
own flush or by the next forced flush) starts with the suppressed XhrError
event followed by the new event: the XhrError event is not dropped. -/
theorem c10_suppressed_xhr_batch_kept (cfg : IConfig)
    (metadata : IImpressionMetadata) (x event : IEvent) (t1 t2 t3 : Int)
    (s : WorkerState) :
    (s.nextBatchIsSingleXhrErrorEvent = true →
      postNextBatchToCore metadata t1 s = (s, []))
    ∧ (s.nextBatchEvents = [x] → s.nextBatchIsSingleXhrErrorEvent = true →
      0 < s.nextBatchBytes →
      ∃ b rest,
        (addEvent cfg metadata event t2 s).2
            ++ (postNextBatchToCore metadata t3 (addEvent cfg metadata event t2 s).1).2
          = b :: rest ∧
        b.payload.events = [x, event]) := by
  constructor
  · intro hflag
    unfold postNextBatchToCore
    rw [if_neg (by simp [hflag])]
  · intro hx hflag hpos
    obtain ⟨ev0, nb, sq, fl⟩ := s
    have hx' : ev0 = [x] := hx
    have hfl : fl = true := hflag
    have hnb : 0 < nb := hpos
    subst hx' hfl
    have hflagFalse : (decide ((([x] : List IEvent) ++ [event]).length = 1 ∧
        isXhrErrorEvent event = true) : Bool) = false := by
      simp
    unfold addEvent
    dsimp only
    have hstep1 : (if 0 < (WorkerState.mk [x] nb sq true).nextBatchBytes ∧
          cfg.batchLimit < (WorkerState.mk [x] nb sq true).nextBatchBytes
            + utf16Length (jsonStringify event.json) then
        postNextBatchToCore metadata t2 (WorkerState.mk [x] nb sq true)
      else
        (WorkerState.mk [x] nb sq true, []))
        = (WorkerState.mk [x] nb sq true, []) := by
      split
      · unfold postNextBatchToCore
        rw [if_neg (by simp)]
      · rfl
    rw [hstep1]
    dsimp only
    by_cases hc : cfg.batchLimit ≤ nb + utf16Length (jsonStringify event.json)
    · rw [if_pos hc]
      obtain ⟨hout, hst⟩ := postNextBatch_emits metadata t2
        (WorkerState.mk ([x] ++ [event])
          (nb + utf16Length (jsonStringify event.json)) sq
          (([x] ++ [event]).length = 1 ∧ isXhrErrorEvent event = true))
        (show 0 < nb + utf16Length (jsonStringify event.json) by omega) hflagFalse
      rw [hout, hst]
      rw [postNextBatch_empty]
      exact ⟨_, _, rfl, rfl⟩
    · rw [if_neg hc]
      dsimp only
      obtain ⟨hout, hst⟩ := postNextBatch_emits metadata t3
        (WorkerState.mk ([x] ++ [event])
          (nb + utf16Length (jsonStringify event.json)) sq
          (([x] ++ [event]).length = 1 ∧ isXhrErrorEvent event = true))
        (show 0 < nb + utf16Length (jsonStringify event.json) by omega) hflagFalse
      rw [hout]
      exact ⟨_, _, rfl, rfl⟩

/-- Witness for C10 at the concrete single-XhrError state followed by a
plain event. -/
theorem c10_suppressed_xhr_batch_kept_witness :
    (suppressedXhrState.nextBatchIsSingleXhrErrorEvent = true ∧
      postNextBatchToCore md0 7 suppressedXhrState = (suppressedXhrState, []))
    ∧ ∃ b rest,
        (addEvent cfg100 md0 plainEvt 0 suppressedXhrState).2
            ++ (postNextBatchToCore md0 1
                (addEvent cfg100 md0 plainEvt 0 suppressedXhrState).1).2
          = b :: rest ∧
        b.payload.events = [xhrEvt, plainEvt] :=
  ⟨⟨rfl, (c10_suppressed_xhr_batch_kept cfg100 md0 xhrEvt plainEvt 7 0 1
      suppressedXhrState).1 rfl⟩,
   (c10_suppressed_xhr_batch_kept cfg100 md0 xhrEvt plainEvt 7 0 1
      suppressedXhrState).2 rfl rfl (by decide)⟩

namespace Layout

/-! Theorems about the Layout plugin. -/

/-- C2: with consistency validation enabled, (1) two consecutive failing
consistency checks leave `allowMutation` false — the tracker enters degraded
mode; (2) in degraded mode a delivered batch is received
(`mutationSequence` still increments) but not applied: no layout events, no
instrumentation, the pre-discovery queue and the inconsistency counter are
untouched, so the tracker stays degraded; (3) `reset` leaves a state where
mutations are allowed again; (4) the event emitted on the second divergence
carries the first divergence's event in its `firstEvent` field; (5) a
consistent check in between resets the consecutive-inconsistency counter to
zero (and clears the stored first event). -/
theorem c2_degraded_mode_after_two_inconsistencies (cfg : LayoutConfig)
    (input1 input2 : ConsistencyInput) (info1 info2 : ILayoutRoutineInfo)
    (s s2 : LayoutTrackerState) (orc : MutationOracle) (time : Int)
    (hv : cfg.validateConsistency = true) :
    (s.inconsistentShadowDomCount = 0 → input1.consistent = false →
      input2.consistent = false →
      allowMutation cfg (checkConsistency cfg input2 info2
        (checkConsistency cfg input1 info1 s).1).1 = false)
    ∧ (allowMutation cfg s2 = false →
      (mutation cfg orc time s2).applied = false
      ∧ (mutation cfg orc time s2).layoutEvents = []
      ∧ (mutation cfg orc time s2).inconsistencyEvents = []
      ∧ (mutation cfg orc time s2).st.domPreDiscoverMutations
          = s2.domPreDiscoverMutations
      ∧ (mutation cfg orc time s2).st.inconsistentShadowDomCount
          = s2.inconsistentShadowDomCount
      ∧ (mutation cfg orc time s2).st.mutationSequence = s2.mutationSequence + 1)
    ∧ allowMutation cfg resetLayoutState = true
    ∧ (s.inconsistentShadowDomCount = 1 → input1.consistent = false →
      (checkConsistency cfg input1 info1 s).2
        = [IShadowDomInconsistentEventState.mk input1.domJson input1.shadowDomJson
            s.lastConsistentDomJson info1 s.firstShadowDomInconsistentEvent])
    ∧ (input1.consistent = true →
      (checkConsistency cfg input1 info1 s).1.inconsistentShadowDomCount = 0
      ∧ (checkConsistency cfg input1 info1 s).1.firstShadowDomInconsistentEvent
          = none) := by
  refine ⟨?_, ?_, ?_, ?_, ?_⟩
  · intro h0 h1 h2
    simp [checkConsistency, allowMutation, hv, h0, h1, h2]
  · intro hdeg
    simp [mutation, hdeg]
  · rfl
  · intro h1c hinc
    simp [checkConsistency, hv, hinc, h1c]
  · intro hcons
    simp [checkConsistency, hv, hcons]

/-- Witness for C2 at concrete states and reports, exercising every
conjunct. -/
theorem c2_degraded_mode_after_two_inconsistencies_witness :
    cfgT.validateConsistency = true ∧
    allowMutation cfgT (checkConsistency cfgT badInput
        ILayoutRoutineInfo.discoverDomInfo
        (checkConsistency cfgT badInput ILayoutRoutineInfo.discoverDomInfo
          resetLayoutState).1).1 = false ∧
    (mutation cfgT orc0 0 degradedState).applied = false ∧
    allowMutation cfgT resetLayoutState = true ∧
    (checkConsistency cfgT badInput ILayoutRoutineInfo.discoverDomInfo
        oneInconsistentState).2
      = [IShadowDomInconsistentEventState.mk badInput.domJson
          badInput.shadowDomJson oneInconsistentState.lastConsistentDomJson
          ILayoutRoutineInfo.discoverDomInfo
          oneInconsistentState.firstShadowDomInconsistentEvent] ∧
    (checkConsistency cfgT goodInput ILayoutRoutineInfo.discoverDomInfo
        oneInconsistentState).1.inconsistentShadowDomCount = 0 :=
  ⟨rfl,
   (c2_degraded_mode_after_two_inconsistencies cfgT badInput badInput
      ILayoutRoutineInfo.discoverDomInfo ILayoutRoutineInfo.discoverDomInfo
      resetLayoutState degradedState orc0 0 rfl).1 rfl rfl rfl,
   ((c2_degraded_mode_after_two_inconsistencies cfgT badInput badInput
      ILayoutRoutineInfo.discoverDomInfo ILayoutRoutineInfo.discoverDomInfo
      resetLayoutState degradedState orc0 0 rfl).2.1 rfl).1,
   (c2_degraded_mode_after_two_inconsistencies cfgT badInput badInput
      ILayoutRoutineInfo.discoverDomInfo ILayoutRoutineInfo.discoverDomInfo
      resetLayoutState degradedState orc0 0 rfl).2.2.1,
   (c2_degraded_mode_after_two_inconsistencies cfgT badInput badInput
      ILayoutRoutineInfo.discoverDomInfo ILayoutRoutineInfo.discoverDomInfo
      oneInconsistentState degradedState orc0 0 rfl).2.2.2.1 rfl rfl,
   ((c2_degraded_mode_after_two_inconsistencies cfgT goodInput badInput
      ILayoutRoutineInfo.discoverDomInfo ILayoutRoutineInfo.discoverDomInfo
      oneInconsistentState degradedState orc0 0 rfl).2.2.2.2 rfl).1⟩

/-- C3 counterexample: with validation enabled, the FIRST divergence
detected by `checkConsistency` increments the inconsistency counter but
emits NO `ShadowDomInconsistent` instrumentation event (it is only stored
as the candidate `firstEvent`), so it is false that every divergence emits
such an event. -/
theorem c3_counterexample_first_divergence_not_instrumented :
    cfgT.validateConsistency = true ∧
    badInput.consistent = false ∧
    (checkConsistency cfgT badInput ILayoutRoutineInfo.discoverDomInfo
        resetLayoutState).1.inconsistentShadowDomCount = 1 ∧
    (checkConsistency cfgT badInput ILayoutRoutineInfo.discoverDomInfo
        resetLayoutState).2 = [] :=
  ⟨rfl, rfl, rfl, rfl⟩

/-- C3 (amended): with consistency validation enabled, every divergence
increments the inconsistency counter; the emitted `ShadowDomInconsistent`
event — carrying the live-DOM index tree, the shadow index tree, the last
known consistent tree and the description of the last routine — is produced
only from the second consecutive divergence onward (with the first
divergence's event attached as `firstEvent`); the first divergence emits
nothing and is stored as the candidate `firstEvent` instead. -/
theorem c3_divergence_increments_and_defers_emission (cfg : LayoutConfig)
    (input : ConsistencyInput) (info : ILayoutRoutineInfo)
    (s : LayoutTrackerState) (hv : cfg.validateConsistency = true)
    (hdiv : input.consistent = false) :
    (checkConsistency cfg input info s).1.inconsistentShadowDomCount
      = s.inconsistentShadowDomCount + 1
    ∧ (s.inconsistentShadowDomCount = 0 →
      (checkConsistency cfg input info s).2 = []
      ∧ (checkConsistency cfg input info s).1.firstShadowDomInconsistentEvent
          = some (IShadowDomInconsistentEventState.mk input.domJson
              input.shadowDomJson s.lastConsistentDomJson info none))
    ∧ (0 < s.inconsistentShadowDomCount →
      (checkConsistency cfg input info s).2
        = [IShadowDomInconsistentEventState.mk input.domJson input.shadowDomJson
            s.lastConsistentDomJson info s.firstShadowDomInconsistentEvent]) := by
  refine ⟨?_, ?_, ?_⟩
  · unfold checkConsistency
    simp only [hv, hdiv, if_true]
    split <;> simp
  · intro h0
    constructor <;> simp [checkConsistency, hv, hdiv, h0]
  · intro h0
    have : ¬(s.inconsistentShadowDomCount + 1 < 2) := by omega
    simp [checkConsistency, hv, hdiv, this]

/-- Witness for C3's amended theorem, at a first and at a second
divergence. -/
theorem c3_divergence_increments_and_defers_emission_witness :
    cfgT.validateConsistency = true ∧ badInput.consistent = false ∧
    (checkConsistency cfgT badInput ILayoutRoutineInfo.discoverDomInfo
        resetLayoutState).1.inconsistentShadowDomCount
      = resetLayoutState.inconsistentShadowDomCount + 1 ∧
    (checkConsistency cfgT badInput ILayoutRoutineInfo.discoverDomInfo
        oneInconsistentState).2
      = [IShadowDomInconsistentEventState.mk badInput.domJson
          badInput.shadowDomJson oneInconsistentState.lastConsistentDomJson
          ILayoutRoutineInfo.discoverDomInfo
          oneInconsistentState.firstShadowDomInconsistentEvent] :=
  ⟨rfl, rfl,
   (c3_divergence_increments_and_defers_emission cfgT badInput
      ILayoutRoutineInfo.discoverDomInfo resetLayoutState rfl rfl).1,
   (c3_divergence_increments_and_defers_emission cfgT badInput
      ILayoutRoutineInfo.discoverDomInfo oneInconsistentState rfl rfl).2.2
     (by decide)⟩

theorem sorted_le_replicate (n k : Nat) :
    List.Sorted (· ≤ ·) (List.replicate n k) := by
  rw [List.Sorted, List.pairwise_replicate]
  omega

theorem sorted_le_append {l1 l2 : List Nat} (h1 : List.Sorted (· ≤ ·) l1)
    (h2 : List.Sorted (· ≤ ·) l2) (h : ∀ a ∈ l1, ∀ b ∈ l2, a ≤ b) :
    List.Sorted (· ≤ ·) (l1 ++ l2) := by
  rw [List.Sorted, List.pairwise_append]
  exact ⟨h1, h2, h⟩

theorem sorted_le_rank_blocks (a b c d : Nat) :
    List.Sorted (· ≤ ·) (((List.replicate a 0 ++ List.replicate b 1)
      ++ List.replicate c 2) ++ List.replicate d 3) := by
  refine sorted_le_append (sorted_le_append (sorted_le_append
    (sorted_le_replicate a 0) (sorted_le_replicate b 1) ?_)
    (sorted_le_replicate c 2) ?_) (sorted_le_replicate d 3) ?_
  all_goals intro x hx y hy
  all_goals simp [List.mem_append, List.mem_replicate] at hx hy
  all_goals omega

theorem filter_action_keep (xs : List IShadowDomNode)
    (f : IShadowDomNode → ILayoutEventInfo) (act : Action)
    (hf : ∀ sn, (f sn).action = act) :
    (xs.map f).filter (fun e => e.action = act) = xs.map f := by
  rw [List.filter_eq_self]
  intro a ha
  simp only [List.mem_map] at ha
  obtain ⟨sn, -, rfl⟩ := ha
  simp [hf]

theorem filter_action_drop (xs : List IShadowDomNode)
    (f : IShadowDomNode → ILayoutEventInfo) (act act2 : Action)
    (hf : ∀ sn, (f sn).action = act) (hne : act ≠ act2) :
    (xs.map f).filter (fun e => e.action = act2) = [] := by
  rw [List.filter_eq_nil_iff]
  intro a ha
  simp only [List.mem_map] at ha
  obtain ⟨sn, -, rfl⟩ := ha
  simp [hf, hne]

/-- C6: the layout events `processMutations` produces from a batch summary
are ordered insert first, then move, then update, then remove (their
`actionRank` sequence is monotone), and within each class they follow the
summary's order: filtering the events by action and projecting to the node
recovers exactly the corresponding summary list. -/
theorem c6_mutation_events_insert_move_update_remove
    (getNodeIdx : Nat → Option Nat) (summary : IShadowDomMutationSummary)
    (time : Int) :
    List.Sorted (· ≤ ·)
      ((processMutations getNodeIdx summary time).map fun e => actionRank e.action)
    ∧ ((processMutations getNodeIdx summary time).filter
        (fun e => e.action = Action.Insert)).map (fun e => e.node)
      = summary.newNodes.map (fun sn => sn.node)
    ∧ ((processMutations getNodeIdx summary time).filter
        (fun e => e.action = Action.Move)).map (fun e => e.node)
      = summary.movedNodes.map (fun sn => sn.node)
    ∧ ((processMutations getNodeIdx summary time).filter
        (fun e => e.action = Action.Update)).map (fun e => e.node)
      = summary.updatedNodes.map (fun sn => sn.node)
    ∧ ((processMutations getNodeIdx summary time).filter
        (fun e => e.action = Action.Remove)).map (fun e => e.node)
      = summary.removedNodes.map (fun sn => sn.node) := by
  refine ⟨?_, ?_, ?_, ?_, ?_⟩
  · simp only [processMutations, List.map_append, List.map_map,
      Function.comp_def]
    simp only [actionRank, List.map_const']
    exact sorted_le_rank_blocks _ _ _ _
  · simp only [processMutations, List.filter_append]
    rw [filter_action_keep _ _ Action.Insert (fun sn => rfl),
      filter_action_drop _ _ Action.Move Action.Insert (fun sn => rfl) (by decide),
      filter_action_drop _ _ Action.Update Action.Insert (fun sn => rfl) (by decide),
      filter_action_drop _ _ Action.Remove Action.Insert (fun sn => rfl) (by decide)]
    simp [List.map_map, Function.comp]
  · simp only [processMutations, List.filter_append]
    rw [filter_action_drop _ _ Action.Insert Action.Move (fun sn => rfl) (by decide),
      filter_action_keep _ _ Action.Move (fun sn => rfl),
      filter_action_drop _ _ Action.Update Action.Move (fun sn => rfl) (by decide),
      filter_action_drop _ _ Action.Remove Action.Move (fun sn => rfl) (by decide)]
    simp [List.map_map, Function.comp]
  · simp only [processMutations, List.filter_append]
    rw [filter_action_drop _ _ Action.Insert Action.Update (fun sn => rfl) (by decide),
      filter_action_drop _ _ Action.Move Action.Update (fun sn => rfl) (by decide),
      filter_action_keep _ _ Action.Update (fun sn => rfl),
      filter_action_drop _ _ Action.Remove Action.Update (fun sn => rfl) (by decide)]
    simp [List.map_map, Function.comp]
  · simp only [processMutations, List.filter_append]
    rw [filter_action_drop _ _ Action.Insert Action.Remove (fun sn => rfl) (by decide),
      filter_action_drop _ _ Action.Move Action.Remove (fun sn => rfl) (by decide),
      filter_action_drop _ _ Action.Update Action.Remove (fun sn => rfl) (by decide),
      filter_action_keep _ _ Action.Remove (fun sn => rfl)]
    simp [List.map_map, Function.comp]

theorem runScroll_chain (last : IElementLayoutState) (ps : List (Int × Int)) :
    List.Chain' scrollFar (runScrollHandlers last ps).2
    ∧ ∀ e ∈ (runScrollHandlers last ps).2.head?, scrollFar last e := by
  induction ps generalizing last with
  | nil => simp [runScrollHandlers]
  | cons p ps ih =>
      obtain ⟨x, y⟩ := p
      unfold runScrollHandlers layoutHandlerScroll
      dsimp only
      split
      next hnear =>
        exact ⟨(ih last).1, (ih last).2⟩
      next hfar =>
        have hfarP : scrollFar last
            { last with
              source := Source.Scroll, action := Action.Update,
              scrollX := x, scrollY := y } := by
          rw [Bool.not_eq_false] at hfar
          unfold checkDistance at hfar
          simpa [scrollFar] using of_decide_eq_true hfar
        constructor
        · simp only [List.singleton_append, List.chain'_cons']
          exact ⟨(ih _).2, (ih _).1⟩
        · intro e he
          simp only [List.singleton_append, List.head?_cons,
            Option.mem_def, Option.some.injEq] at he
          subst he
          exact hfarP

/-- C7: a scroll callback emits a layout event if and only if the squared
Euclidean distance between the new scroll offsets and the last recorded
layout state's offsets strictly exceeds `distanceThreshold² = 25` (i.e. the
Euclidean distance strictly exceeds 5 px); the emitted state records the
new offsets with `source = Scroll`, `action = Update`; consequently, along
any run of scroll callbacks for one index the emitted events form a chain
in which consecutive events are pairwise farther apart than the threshold —
no two consecutive emitted scroll events lie within distance 5. -/
theorem c7_scroll_throttled_by_distance (last : IElementLayoutState)
    (x y : Int) (ps : List (Int × Int)) :
    ((layoutHandlerScroll last x y).2 ≠ [] ↔
      (last.scrollX - x) * (last.scrollX - x)
        + (last.scrollY - y) * (last.scrollY - y)
        > distanceThreshold * distanceThreshold)
    ∧ (∀ st ∈ (layoutHandlerScroll last x y).2,
      st.scrollX = x ∧ st.scrollY = y ∧ st.source = Source.Scroll
        ∧ st.action = Action.Update)
    ∧ List.Chain' scrollFar (runScrollHandlers last ps).2 := by
  refine ⟨?_, ?_, (runScroll_chain last ps).1⟩
  · unfold layoutHandlerScroll checkDistance
    dsimp only
    split
    next h => simpa using h
    next h =>
      rw [Bool.not_eq_false] at h
      simpa using of_decide_eq_true h
  · intro st hst
    unfold layoutHandlerScroll at hst
    dsimp only at hst
    split at hst
    next => simp at hst
    next =>
      simp only [List.mem_singleton] at hst
      subst hst
      exact ⟨rfl, rfl, rfl, rfl⟩

/-- Witness for C7 at the state scrolled from (0,0) to (10,0) and a
two-callback run. -/
theorem c7_scroll_throttled_by_distance_witness :
    ((layoutHandlerScroll scrolledState 10 0).2 ≠ [] ↔
      (scrolledState.scrollX - 10) * (scrolledState.scrollX - 10)
        + (scrolledState.scrollY - 0) * (scrolledState.scrollY - 0)
        > distanceThreshold * distanceThreshold)
    ∧ (∀ st ∈ (layoutHandlerScroll scrolledState 10 0).2,
      st.scrollX = 10 ∧ st.scrollY = 0 ∧ st.source = Source.Scroll
        ∧ st.action = Action.Update)
    ∧ List.Chain' scrollFar
        (runScrollHandlers scrolledState [(10, 0), (12, 0)]).2 :=
  c7_scroll_throttled_by_distance scrolledState 10 0 [(10, 0), (12, 0)]

theorem backfillProcess_events (time : Int) (k : Nat)
    (queue : List OriginalLayoutEntry) :
    ∀ ev ∈ (backfillProcess time k queue).1,
      ev.time = time ∧ ev.source = Source.Discover
        ∧ ev.action = Action.Insert := by
  induction queue generalizing k with
  | nil => cases k <;> simp [backfillProcess]
  | cons entry rest ih =>
      cases k with
      | zero => simp [backfillProcess]
      | succ k =>
          simp only [backfillProcess]
          intro ev hev
          rcases List.mem_cons.mp hev with h | h
          · subst h
            exact ⟨rfl, rfl, rfl⟩
          · exact ih k ev h

theorem backfillLayoutsAsync_events (time : Int) (slices : List Nat) :
    ∀ queue : List OriginalLayoutEntry,
      ∀ ev ∈ (backfillLayoutsAsync time slices queue).1,
        ev.time = time ∧ ev.source = Source.Discover
          ∧ ev.action = Action.Insert := by
  induction slices with
  | nil =>
      intro queue ev hev
      simp [backfillLayoutsAsync] at hev
  | cons k slices ih =>
      intro queue ev hev
      simp only [backfillLayoutsAsync] at hev
      split at hev
      next => exact backfillProcess_events time k queue ev hev
      next =>
          rcases List.mem_append.mp hev with h | h
          · exact backfillProcess_events time k queue ev h
          · exact ih _ ev h

/-- C8: every Discover/Insert layout event produced by the asynchronous
backfill carries the timestamp taken at DOM discovery (the `time` argument
captured by `discoverDom` and threaded unchanged through every re-scheduled
slice), not the time at which the slice that processed the node ran —
regardless of how many zero-delay yields occur before the node is
processed. -/
theorem c8_backfill_preserves_discovery_timestamp (discoverTime : Int)
    (slices : List Nat) (queue : List OriginalLayoutEntry) :
    ∀ ev ∈ (discoverDom discoverTime slices queue).1,
      ev.time = discoverTime ∧ ev.source = Source.Discover
        ∧ ev.action = Action.Insert :=
  backfillLayoutsAsync_events discoverTime slices queue

/-- Witness for C8 on a two-entry queue processed in two one-entry
slices. -/
theorem c8_backfill_preserves_discovery_timestamp_witness :
    backfillEvt3 ∈ (discoverDom 42 [1, 1] queue2).1 ∧
    (backfillEvt3.time = 42 ∧ backfillEvt3.source = Source.Discover
      ∧ backfillEvt3.action = Action.Insert) :=
  ⟨by decide,
   c8_backfill_preserves_discovery_timestamp 42 [1, 1] queue2 backfillEvt3
     (by decide)⟩

end Layout

end Clarity
